import Mathlib

/-!
Verification development for the PokerOK / GGNetwork hand-history analyzer
(`handhistory.py`): a shallow embedding of its hand parser, position
resolver and statistics aggregator, together with theorems about them.

Modelling conventions:
* Python `float` values are embedded as `ℚ`.  The numeric strings that
  reach `float(...)` in this program are captures shaped like
  `[\d\.$-]`-ish tokens; `pyFloat` below models `float()` on optionally
  signed decimal literals (scientific notation, `inf`/`nan` and digit
  underscores are outside the inputs exercised here and are not modelled).
* Python `round(x, 2)` is modelled by `round2` (round half up); all
  concrete values appearing in the theorems below are tie-free, so the
  difference from banker's rounding is immaterial.
* Strings are processed as `List Char`; the regular expressions of the
  source are implemented as explicit matchers with the exact
  leftmost-search and greedy/backtracking semantics of `re` for the
  concrete patterns appearing in the source.
* A raised Python exception inside `parse_hand`'s `try` block is embedded
  as `Except.error`; the surrounding handler returning `None` is
  `Except.toOption`.
-/

namespace HH

/-- Whitespace as recognised by `\s`, `str.strip` and `str.split` for the
inputs of this development. -/
def isSpc (c : Char) : Bool := c = ' ' || c = '\t' || c = '\n' || c = '\r'

def isDigitDot (c : Char) : Bool := c.isDigit || c = '.'

/-- `str.strip()`. -/
def stripChars (l : List Char) : List Char :=
  ((l.dropWhile isSpc).reverse.dropWhile isSpc).reverse

/-- Substring containment, as Python's `"FLOP" in line`. -/
def containsSub (needle : List Char) : List Char → Bool
  | [] => needle.isEmpty
  | c :: t => needle.isPrefixOf (c :: t) || containsSub needle t

/-- Leftmost-search combinator: try the matcher at every start position,
as `re.search` does. -/
def searchWith {α : Type} (f : List Char → Option α) : List Char → Option α
  | [] => f []
  | c :: t =>
    match f (c :: t) with
    | some a => some a
    | none => searchWith f t

/-- Match a literal, then continue with `k` on the remainder. -/
def afterLit {α : Type} (lit : List Char) (k : List Char → Option α)
    (cs : List Char) : Option α :=
  if lit.isPrefixOf cs then k (cs.drop lit.length) else none

/-- Split a list at the last occurrence of `ch` whose right part satisfies
`rightOk`; returns `(left, right)`.  This is the backtracking behaviour of
a greedy `\S+` followed by the literal `ch`. -/
def splitAtLast (ch : Char) (rightOk : List Char → Bool) :
    List Char → Option (List Char × List Char)
  | [] => none
  | c :: t =>
    match splitAtLast ch rightOk t with
    | some (l, r) => some (c :: l, r)
    | none => if c = ch && rightOk t then some ([], t) else none

/-- Backtracking for `\s+(.+)`: try giving the capture the text after the
first `k` whitespace characters, largest `k` first; the capture is a
nonempty run of non-newline characters. -/
def tryDrops : ℕ → List Char → Option (List Char)
  | 0, _ => none
  | k + 1, r =>
    let cap := (r.drop (k + 1)).takeWhile (fun c => !(c = '\n'))
    if cap.isEmpty then tryDrops k r else some cap

/-- Split on `'\n'` (keeping empty segments). -/
def splitNl : List Char → List (List Char)
  | [] => [[]]
  | c :: t =>
    if c = '\n' then [] :: splitNl t
    else
      match splitNl t with
      | [] => [[c]]
      | l :: ls => (c :: l) :: ls

/-- `str.splitlines()` for newline-delimited text. -/
def splitLines (cs : List Char) : List (List Char) :=
  if cs.getLast? = some '\n' || cs.isEmpty then (splitNl cs).dropLast else splitNl cs

/-- `str.split()`: whitespace-separated tokens, no empties. -/
def splitWsAux : List Char → List Char → List (List Char)
  | cur, [] => if cur.isEmpty then [] else [cur.reverse]
  | cur, c :: t =>
    if isSpc c then
      if cur.isEmpty then splitWsAux [] t else cur.reverse :: splitWsAux [] t
    else splitWsAux (c :: cur) t

def splitWs (cs : List Char) : List (List Char) := splitWsAux [] cs

/-- Digit run to a natural number (`int()` on a `\d+` capture). -/
def digitsToNat (ds : List Char) : ℕ :=
  ds.foldl (fun n c => n * 10 + (c.toNat - 48)) 0

/-- `float()` on an unsigned decimal literal. -/
def pyFloatPos (cs : List Char) : Option ℚ :=
  let ip := cs.takeWhile Char.isDigit
  let rest := cs.drop ip.length
  match rest with
  | [] => if ip.isEmpty then none else some ((digitsToNat ip : ℚ))
  | '.' :: frac =>
    if frac.all Char.isDigit && !(ip.isEmpty && frac.isEmpty) then
      some ((digitsToNat ip : ℚ) + (digitsToNat frac : ℚ) / (10 : ℚ) ^ frac.length)
    else none
  | _ => none

/-- Python `float()` on an optionally signed decimal literal. -/
def pyFloat (cs : List Char) : Option ℚ :=
  match cs with
  | '-' :: t => (pyFloatPos t).map Neg.neg
  | '+' :: t => pyFloatPos t
  | _ => pyFloatPos cs

/-- `float()` embedded in the exception monad: an unconvertible token is
the `ValueError` that aborts `parse_hand`'s `try` block. -/
def pyFloatE (cs : List Char) : Except String ℚ :=
  match pyFloat cs with
  | some q => Except.ok q
  | none => Except.error "could not convert string to float"

/-- `.replace("$", "")`. -/
def remDollar (cs : List Char) : List Char := cs.filter (fun c => !(c = '$'))

-- =========================================================
--  Data classes
-- =========================================================

structure Player where
  seat : ℕ
  name : String
  stack : ℚ
deriving DecidableEq

structure Action where
  street : String
  actor : String
  action : String
  amount : Option ℚ
deriving DecidableEq

structure Hand where
  hand_id : String
  datetime : Option String
  table : String
  sb : ℚ
  bb : ℚ
  hero : String
  hero_cards : List String
  players : List Player
  actions : List Action
  board : List String
  hero_result : ℚ
deriving DecidableEq

-- =========================================================
--  Parser: regex matchers for the concrete patterns
-- =========================================================

/-- `re.search(r"Poker Hand #(\d+)", text)`, the captured digits. -/
def findHandId (cs : List Char) : Option (List Char) :=
  searchWith
    (afterLit "Poker Hand #".data (fun r =>
      let ds := r.takeWhile Char.isDigit
      if ds.isEmpty then none else some ds)) cs

/-- `re.search(r"Table\s+(.+)", text)`, the capture. -/
def findTable (cs : List Char) : Option (List Char) :=
  searchWith
    (afterLit "Table".data (fun r => tryDrops (r.takeWhile isSpc).length r)) cs

/-- `re.search(r"Blinds\s+(\S+)/(\S+)", text)`, the two captures. -/
def findBlinds (cs : List Char) : Option (List Char × List Char) :=
  searchWith
    (afterLit "Blinds".data (fun r =>
      let ws := r.takeWhile isSpc
      if ws.isEmpty then none
      else
        let r2 := r.drop ws.length
        let tok := r2.takeWhile (fun c => !isSpc c)
        if tok.isEmpty then none
        else
          match splitAtLast '/' (fun rr => !rr.isEmpty) tok with
          | some (l, rr) => if l.isEmpty then none else some (l, rr)
          | none => none)) cs

/-- One attempt of the `Seat (\d+): (\S+) \(([\d\.]+)\)` pattern at the
start of `cs`; on success returns the three captures and the length of
the whole match. -/
def matchSeatAt (cs : List Char) : Option ((List Char × List Char × List Char) × ℕ) :=
  if "Seat ".data.isPrefixOf cs then
    let r0 := cs.drop 5
    let ds := r0.takeWhile Char.isDigit
    if ds.isEmpty then none
    else
      let r1 := r0.drop ds.length
      if ": ".data.isPrefixOf r1 then
        let r2 := r1.drop 2
        let nm := r2.takeWhile (fun c => !isSpc c)
        if nm.isEmpty then none
        else
          let r3 := r2.drop nm.length
          if " (".data.isPrefixOf r3 then
            let r4 := r3.drop 2
            let st := r4.takeWhile isDigitDot
            if st.isEmpty then none
            else
              match r4.drop st.length with
              | ')' :: _ => some ((ds, nm, st), 5 + ds.length + 2 + nm.length + 2 + st.length + 1)
              | _ => none
          else none
      else none
  else none

/-- `re.findall` for the seat pattern: scan left to right, resuming after
each non-overlapping match.  Structural recursion on a fuel argument; the
scan consumes at least one character and one unit of fuel per step, so a
fuel of the text length never runs out before the text does. -/
def findAllSeatsAux : ℕ → List Char → List (List Char × List Char × List Char)
  | 0, _ => []
  | _, [] => []
  | fuel + 1, c :: t =>
    match matchSeatAt (c :: t) with
    | some (res, n) => res :: findAllSeatsAux fuel (t.drop (n - 1))
    | none => findAllSeatsAux fuel t

def findAllSeats (cs : List Char) : List (List Char × List Char × List Char) :=
  findAllSeatsAux cs.length cs

/-- `re.search(hero + r": Card dealt to \S+ \[(\S+) (\S+)\]", text)`,
the two card captures. -/
def findHeroCards (hero : String) (cs : List Char) : Option (List Char × List Char) :=
  searchWith
    (afterLit (hero ++ ": Card dealt to ").data (fun r =>
      let tok := r.takeWhile (fun c => !isSpc c)
      if tok.isEmpty then none
      else
        let r1 := r.drop tok.length
        if " [".data.isPrefixOf r1 then
          let r2 := r1.drop 2
          let c1 := r2.takeWhile (fun c => !isSpc c)
          if c1.isEmpty then none
          else
            let r3 := r2.drop c1.length
            match r3 with
            | ' ' :: r4 =>
              let u := r4.takeWhile (fun c => !isSpc c)
              match splitAtLast ']' (fun _ => true) u with
              | some (c2, _) => if c2.isEmpty then none else some (c1, c2)
              | none => none
            | _ => none
        else none)) cs

/-- `re.search(r"Board \[(.*?)\]", text)`: the lazily captured content up
to the first `]` on the same line. -/
def findBoard (cs : List Char) : Option (List Char) :=
  searchWith
    (afterLit "Board [".data (fun r =>
      let cap := r.takeWhile (fun c => !(c = ']' || c = '\n'))
      match r.drop cap.length with
      | ']' :: _ => some cap
      | _ => none)) cs

/-- `re.search(lit + r"\$?([\d\.]+)", text)` for the `collected` / `lost`
patterns, the numeric capture (without the dollar sign). -/
def findMoney (lit : List Char) (cs : List Char) : Option (List Char) :=
  searchWith
    (afterLit lit (fun r =>
      match r with
      | '$' :: r2 =>
        let d := r2.takeWhile isDigitDot
        if d.isEmpty then none else some d
      | _ =>
        let d := r.takeWhile isDigitDot
        if d.isEmpty then none else some d)) cs

/-- The recognised action verbs, in the order of the regex alternation. -/
def actionVerbs : List (List Char) :=
  ["folds".data, "checks".data, "calls".data, "bets".data, "raises".data, "all-in".data]

/-- `re.match(r"(\S+): (folds|checks|calls|bets|raises|all-in)(?: (\$?[\d\.]+))?", line)`:
actor, verb, and the optional raw amount capture (dollar sign included). -/
def matchActionLine (line : List Char) : Option (List Char × List Char × Option (List Char)) :=
  let t := line.takeWhile (fun c => !isSpc c)
  if 2 ≤ t.length && t.getLast? == some ':' && (line.drop t.length).head? == some ' ' then
    let actor := t.dropLast
    let rest := line.drop (t.length + 1)
    match actionVerbs.find? (fun v => v.isPrefixOf rest) with
    | some verb =>
      let r := rest.drop verb.length
      let amt :=
        match r with
        | ' ' :: r2 =>
          match r2 with
          | '$' :: r3 =>
            let d := r3.takeWhile isDigitDot
            if d.isEmpty then none else some ('$' :: d)
          | _ =>
            let d := r2.takeWhile isDigitDot
            if d.isEmpty then none else some d
        | _ => none
      some (actor, verb, amt)
    | none => none
  else none

-- =========================================================
--  Parser: extraction steps of parse_hand
-- =========================================================

/-- The stakes step: `Blinds` captures through `float` (with `$` removed),
else the `(0.5, 1.0)` fallback. -/
def extractStakes (text : String) : Except String (ℚ × ℚ) :=
  match findBlinds text.data with
  | some (t1, t2) =>
    match pyFloatE (remDollar t1) with
    | Except.error e => Except.error e
    | Except.ok sb =>
      match pyFloatE (remDollar t2) with
      | Except.error e => Except.error e
      | Except.ok bb => Except.ok (sb, bb)
  | none => Except.ok ((1 : ℚ) / 2, 1)

/-- Build the player list from the seat-pattern captures; each stack
capture goes through `float`, aborting at the first bad one. -/
def playersFrom : List (List Char × List Char × List Char) → Except String (List Player)
  | [] => Except.ok []
  | x :: t =>
    match pyFloatE x.2.2 with
    | Except.error e => Except.error e
    | Except.ok q =>
      match playersFrom t with
      | Except.error e => Except.error e
      | Except.ok ps => Except.ok (Player.mk (digitsToNat x.1) (String.mk x.2.1) q :: ps)

/-- The players step: every seat-line match becomes a `Player`. -/
def extractPlayers (text : String) : Except String (List Player) :=
  playersFrom (findAllSeats text.data)

/-- The hero-cards step (never raises). -/
def extractHeroCards (text hero : String) : List String :=
  match findHeroCards hero text.data with
  | some (c1, c2) => [String.mk c1, String.mk c2]
  | none => []

/-- The board step (never raises): whitespace-split of the bracketed
capture, empty if there is no `Board [...]` line. -/
def extractBoard (text : String) : List String :=
  match findBoard text.data with
  | some cap => (splitWs cap).map String.mk
  | none => []

/-- Street headers: a (stripped) line starting with `***`. -/
def isSectionMarker (line : List Char) : Bool := "***".data.isPrefixOf line

/-- The street a marker line switches to. -/
def streetOf (line : List Char) : String :=
  if containsSub "FLOP".data line then "flop"
  else if containsSub "TURN".data line then "turn"
  else if containsSub "RIVER".data line then "river"
  else "preflop"

/-- `float` applied to the optional amount capture (with `$` removed). -/
def amountValue : Option (List Char) → Except String (Option ℚ)
  | none => Except.ok none
  | some a => (pyFloatE (remDollar a)).map some

/-- Append one matched action line: the amount conversion happens first
(its `float` error is the one that aborts the hand), then the rest of the
lines. -/
def withAmount (st : String) (actor verb : List Char) (amt : Option (List Char))
    (more : Except String (List Action)) : Except String (List Action) :=
  match amountValue amt with
  | Except.error e => Except.error e
  | Except.ok amount =>
    match more with
    | Except.error e => Except.error e
    | Except.ok ms =>
      Except.ok (Action.mk st (String.mk actor) (String.mk verb) amount :: ms)

/-- The action loop of `parse_hand`: walk the lines with the current
street (`none` before the first section marker); marker lines switch the
street, matched action lines are appended only when a street is set. -/
def actionsLoop : Option String → List (List Char) → Except String (List Action)
  | _, [] => Except.ok []
  | street, l :: rest =>
    let line := stripChars l
    if isSectionMarker line then actionsLoop (some (streetOf line)) rest
    else
      match matchActionLine line, street with
      | some (actor, verb, amt), some st =>
        withAmount st actor verb amt (actionsLoop street rest)
      | _, _ => actionsLoop street rest

def extractActions (text : String) : Except String (List Action) :=
  actionsLoop none (splitLines text.data)

/-- The hero-result step: `collected` adds, `lost` subtracts; each capture
goes through `float`. -/
def extractResult (text hero : String) : Except String ℚ :=
  match
    (match findMoney (hero ++ " collected ").data text.data with
     | some d => (pyFloatE d).map some
     | none => Except.ok none) with
  | Except.error e => Except.error e
  | Except.ok w =>
    match
      (match findMoney (hero ++ " lost ").data text.data with
       | some d => (pyFloatE d).map some
       | none => Except.ok none) with
    | Except.error e => Except.error e
    | Except.ok l => Except.ok (w.getD 0 - l.getD 0)

/-- The body of `parse_hand`'s `try` block. -/
def parseHandCore (text hero : String) : Except String Hand :=
  let hand_id := ((findHandId text.data).map String.mk).getD "UNKNOWN"
  let table := ((findTable text.data).map (fun c => String.mk (stripChars c))).getD "UnknownTable"
  match extractStakes text with
  | Except.error e => Except.error e
  | Except.ok stakes =>
    match extractPlayers text with
    | Except.error e => Except.error e
    | Except.ok players =>
      let hero_cards := extractHeroCards text hero
      let board := extractBoard text
      match extractActions text with
      | Except.error e => Except.error e
      | Except.ok actions =>
        match extractResult text hero with
        | Except.error e => Except.error e
        | Except.ok result =>
          Except.ok
            (Hand.mk hand_id none table stakes.1 stakes.2 hero hero_cards players actions
              board result)

/-- `parse_hand`: the `try`/`except` wrapper returning `None` on any
exception. -/
def parse_hand (hand_text hero_name : String) : Option Hand :=
  (parseHandCore hand_text hero_name).toOption

-- =========================================================
--  Position logic
-- =========================================================

/-- Association-list lookup with Python `dict.get` / first-match
semantics. -/
def alookup {b : Type} (k : String) : List (String × b) → Option b
  | [] => none
  | (k1, v) :: t => if k1 = k then some v else alookup k t

/-- Python `dict` assignment: overwrite in place, else append. -/
def dictSet : List (String × String) → String → String → List (String × String)
  | [], k, v => [(k, v)]
  | (k1, v1) :: t, k, v => if k1 = k then (k1, v) :: t else (k1, v1) :: dictSet t k v

def positionsVocab : List String := ["BTN", "SB", "BB", "UTG", "MP", "CO"]

/-- `positions[i % len(positions)]`. -/
def posLabel (i : ℕ) : String := positionsVocab.getD (i % positionsVocab.length) ""

/-- `sorted(hand.players, key=lambda p: p.seat)`: Python `sorted` is a
stable sort, uniquely determined by (stable ∧ sorted); `insertionSort`
with `≤` on seats computes exactly that. -/
def sorted_players (hand : Hand) : List Player :=
  hand.players.insertionSort (fun p q => p.seat ≤ q.seat)

/-- `determine_positions`. -/
def determine_positions (hand : Hand) : List (String × String) :=
  if hand.players.isEmpty then []
  else
    ((sorted_players hand).enum).foldl
      (fun m ip => dictSet m ip.2.name (posLabel ip.1)) []

-- =========================================================
--  Stats aggregator
-- =========================================================

/-- `Counter` access: `cnt.get(k, d)`. -/
def cntGet (cnt : List (String × ℕ)) (k : String) (d : ℕ) : ℕ :=
  (alookup k cnt).getD d

/-- `Counter[k] += 1` (a missing key counts as 0). -/
def assocIncr : List (String × ℕ) → String → List (String × ℕ)
  | [], k => [(k, 1)]
  | (k1, v) :: t, k => if k1 = k then (k1, v + 1) :: t else (k1, v) :: assocIncr t k

/-- `pos_stats[pos][k] += 1` on a `defaultdict(Counter)`. -/
def posIncr : List (String × List (String × ℕ)) → String → String → List (String × List (String × ℕ))
  | [], pos, k => [(pos, [(k, 1)])]
  | (p, c) :: t, pos, k =>
    if p = pos then (p, assocIncr c k) :: t else (p, c) :: posIncr t pos k

/-- The counter of one position (empty if the position was never touched). -/
def posCounter (ps : List (String × List (String × ℕ))) (pos : String) : List (String × ℕ) :=
  (alookup pos ps).getD []

structure StatsAggregator where
  hero : String
  hands : List Hand
  total_won_chips : ℚ
  vpip : ℕ
  pfr : ℕ
  hands_count : ℕ
  threebet : ℕ
  threebet_opportunities : ℕ
  fold_to_3bet : ℕ
  vs_3bet_opportunities : ℕ
  cbet_flop : ℕ
  cbet_flop_opportunities : ℕ
  cbet_turn : ℕ
  cbet_turn_opportunities : ℕ
  wtsd : ℕ
  wsd_wins : ℕ
  saw_flop : ℕ
  pos_stats : List (String × List (String × ℕ))
deriving DecidableEq

/-- A fresh `StatsAggregator(hero=hero)`. -/
def initAgg (hero : String) : StatsAggregator :=
  ⟨hero, [], 0, 0, 0, 0, 0, 0, 0, 0, 0, 0, 0, 0, 0, 0, 0, []⟩

/-- `positions.get(self.hero, "UNKNOWN")`. -/
def hero_position (hero : String) (hand : Hand) : String :=
  (alookup hero (determine_positions hand)).getD "UNKNOWN"

/-- Hero preflop actions. -/
def preflopHeroActions (hero : String) (hand : Hand) : List Action :=
  hand.actions.filter (fun a => a.street == "preflop" && a.actor == hero)

def did_vpip (hero : String) (hand : Hand) : Bool :=
  (preflopHeroActions hero hand).any
    (fun a => ["calls", "raises", "bets", "all-in"].contains a.action)

def did_pfr (hero : String) (hand : Hand) : Bool :=
  (preflopHeroActions hero hand).any
    (fun a => ["raises", "bets", "all-in"].contains a.action)

def flopActions (hand : Hand) : List Action :=
  hand.actions.filter (fun a => a.street == "flop")

def turnActions (hand : Hand) : List Action :=
  hand.actions.filter (fun a => a.street == "turn")

/-- `add_hand`, first block: append the hand, bump the hand count, add the
result, bump the positional hand counter. -/
def upBase (hand : Hand) (hero_pos : String) (s : StatsAggregator) : StatsAggregator :=
  { s with
    hands := s.hands ++ [hand]
    hands_count := s.hands_count + 1
    total_won_chips := s.total_won_chips + hand.hero_result
    pos_stats := posIncr s.pos_stats hero_pos "hands" }

/-- `add_hand`, VPIP block. -/
def upVpip (hero_pos : String) (dv : Bool) (s : StatsAggregator) : StatsAggregator :=
  if dv then
    { s with vpip := s.vpip + 1, pos_stats := posIncr s.pos_stats hero_pos "vpip" }
  else s

/-- `add_hand`, PFR block. -/
def upPfr (hero_pos : String) (dp : Bool) (s : StatsAggregator) : StatsAggregator :=
  if dp then
    { s with pfr := s.pfr + 1, pos_stats := posIncr s.pos_stats hero_pos "pfr" }
  else s

/-- `add_hand`, saw-flop block. -/
def upSawFlop (fa : List Action) (s : StatsAggregator) : StatsAggregator :=
  if fa.isEmpty then s else { s with saw_flop := s.saw_flop + 1 }

/-- `add_hand`, WTSD / W$SD block. -/
def upShowdown (hand : Hand) (s : StatsAggregator) : StatsAggregator :=
  if !hand.board.isEmpty && hand.board.length == 5 then
    { s with
      wtsd := s.wtsd + 1
      wsd_wins := if (0 : ℚ) < hand.hero_result then s.wsd_wins + 1 else s.wsd_wins }
  else s

/-- `add_hand`, flop c-bet block. -/
def upCbetFlop (hero hero_pos : String) (dp : Bool) (fa : List Action)
    (s : StatsAggregator) : StatsAggregator :=
  if dp && !fa.isEmpty then
    let sa := { s with cbet_flop_opportunities := s.cbet_flop_opportunities + 1 }
    if fa.head?.map Action.actor == some hero then
      { sa with
        cbet_flop := sa.cbet_flop + 1
        pos_stats := posIncr sa.pos_stats hero_pos "cbet_flop" }
    else sa
  else s

/-- `add_hand`, turn c-bet block. -/
def upCbetTurn (hero hero_pos : String) (dp : Bool) (ta : List Action)
    (s : StatsAggregator) : StatsAggregator :=
  if dp && !ta.isEmpty then
    let sa := { s with cbet_turn_opportunities := s.cbet_turn_opportunities + 1 }
    if ta.head?.map Action.actor == some hero then
      { sa with
        cbet_turn := sa.cbet_turn + 1
        pos_stats := posIncr sa.pos_stats hero_pos "cbet_turn" }
    else sa
  else s

/-- `StatsAggregator.add_hand`: the sequence of mutation blocks of the
source, applied in order. -/
def add_hand (s : StatsAggregator) (hand : Hand) : StatsAggregator :=
  upCbetTurn s.hero (hero_position s.hero hand) (did_pfr s.hero hand) (turnActions hand)
    (upCbetFlop s.hero (hero_position s.hero hand) (did_pfr s.hero hand) (flopActions hand)
      (upShowdown hand
        (upSawFlop (flopActions hand)
          (upPfr (hero_position s.hero hand) (did_pfr s.hero hand)
            (upVpip (hero_position s.hero hand) (did_vpip s.hero hand)
              (upBase hand (hero_position s.hero hand) s))))))

/-- A fresh aggregator after ingesting the given hands in order. -/
def ingestAll (hero : String) (hs : List Hand) : StatsAggregator :=
  hs.foldl add_hand (initAgg hero)

-- =========================================================
--  Stats computation
-- =========================================================

/-- Python `round(x, 2)`, modelled as round half up. -/
def round2 (q : ℚ) : ℚ := ((⌊q * 100 + 1 / 2⌋ : ℤ) : ℚ) / 100

/-- `statistics.mean` on a nonempty list. -/
def meanQ (l : List ℚ) : ℚ := l.sum / (l.length : ℚ)

/-- `mean([h.bb for h in self.hands]) if self.hands else 1`. -/
def avg_bb (s : StatsAggregator) : ℚ :=
  if s.hands.isEmpty then 1 else meanQ (s.hands.map Hand.bb)

/-- The dictionary returned by `StatsAggregator.compute` (fixed keys). -/
structure GlobalStats where
  hands : ℕ
  vpip_pct : ℚ
  pfr_pct : ℚ
  vpip_pfr_gap : ℚ
  cbet_flop_pct : ℚ
  cbet_turn_pct : ℚ
  wtsd_pct : ℚ
  wsd_pct : ℚ
  total_won_chips : ℚ
  bb_per_100 : ℚ
deriving DecidableEq

/-- `StatsAggregator.compute`. -/
def compute (s : StatsAggregator) : GlobalStats :=
  let total : ℕ := if s.hands_count = 0 then 1 else s.hands_count
  let vpip_pct := round2 ((s.vpip : ℚ) / (total : ℚ) * 100)
  let pfr_pct := round2 ((s.pfr : ℚ) / (total : ℚ) * 100)
  { hands := s.hands_count
    vpip_pct := vpip_pct
    pfr_pct := pfr_pct
    vpip_pfr_gap := round2 (vpip_pct - pfr_pct)
    cbet_flop_pct := round2
      (if s.cbet_flop_opportunities ≠ 0 then
        (s.cbet_flop : ℚ) / (s.cbet_flop_opportunities : ℚ) * 100
      else 0)
    cbet_turn_pct := round2
      (if s.cbet_turn_opportunities ≠ 0 then
        (s.cbet_turn : ℚ) / (s.cbet_turn_opportunities : ℚ) * 100
      else 0)
    wtsd_pct := round2
      ((s.wtsd : ℚ) / ((if s.saw_flop = 0 then 1 else s.saw_flop : ℕ) : ℚ) * 100)
    wsd_pct := round2
      ((s.wsd_wins : ℚ) / ((if s.wtsd = 0 then 1 else s.wtsd : ℕ) : ℚ) * 100)
    total_won_chips := round2 s.total_won_chips
    bb_per_100 := round2 (s.total_won_chips / avg_bb s * 100 / (total : ℚ)) }

/-- The flop c-bet ratio computed (and then discarded) inside
`compute_positional`:
`cnt.get("cbet_flop", 0) / (cnt.get("cbet_flop_opportunities", hands) or 1) * 100`. -/
def cbfOf (cnt : List (String × ℕ)) (hands : ℕ) : ℚ :=
  let denom := cntGet cnt "cbet_flop_opportunities" hands
  (cntGet cnt "cbet_flop" 0 : ℚ) / ((if denom = 0 then 1 else denom : ℕ) : ℚ) * 100

/-- `StatsAggregator.compute_positional`: for each position with at least
one hand, the per-position output dictionary (fixed keys, in insertion
order). -/
def compute_positional (s : StatsAggregator) : List (String × List (String × ℚ)) :=
  s.pos_stats.filterMap (fun pc =>
    let hands := cntGet pc.2 "hands" 0
    if hands = 0 then none
    else
      let vp := (cntGet pc.2 "vpip" 0 : ℚ) / (hands : ℚ) * 100
      let pf := (cntGet pc.2 "pfr" 0 : ℚ) / (hands : ℚ) * 100
      let cbf := cbfOf pc.2 hands
      let results :=
        (s.hands.filter
          (fun h => alookup s.hero (determine_positions h) == some pc.1)).map
          Hand.hero_result
      let bb100 : ℚ :=
        if results.isEmpty then 0
        else results.sum / meanQ (s.hands.map Hand.bb) * 100 / (results.length : ℚ)
      some (pc.1,
        [("hands", (hands : ℚ)), ("vpip_pct", round2 vp), ("pfr_pct", round2 pf),
         ("bb_per_100", round2 bb100)]))

/-- Modelled from the spec: `bb_per_100 = cumulative_result /
mean(big_blind across all ingested hands) * 100 / hand_count`, rounded to
2 decimal places. -/
def specBBPer100 (hs : List Hand) : ℚ :=
  round2 ((hs.map Hand.hero_result).sum / meanQ (hs.map Hand.bb) * 100 / (hs.length : ℚ))


-- =========================================================
--  Concrete inputs used in the theorems below
-- =========================================================

/-- A block whose action lines precede every section marker. -/
def exPreMarkerText : String := "Poker Hand #1\nHero: raises 2\nAlice: folds"

/-- A block whose `Board` line has two card tokens. -/
def exShortBoardText : String := "Poker Hand #2\nBoard [Ah Kh]"

/-- A block whose `Blinds` tokens are not numbers. -/
def exBadBlindsText : String := "Poker Hand #3\nBlinds x/y"

/-- A hand that reached a 5-card board but has no flop action recorded. -/
def exShowdownNoFlop : Hand :=
  Hand.mk "1" none "T" 1 1 "H" [] [] [] ["a", "b", "c", "d", "e"] 0

/-- Hero open-raises and c-bets the flop first. -/
def exHandCbet : Hand :=
  Hand.mk "2" none "T" 1 1 "H" [] [Player.mk 1 "H" 100]
    [Action.mk "preflop" "H" "raises" (some 2), Action.mk "flop" "H" "bets" (some 2)] [] 0

/-- Hero folds preflop. -/
def exHandFold : Hand :=
  Hand.mk "3" none "T" 1 1 "H" [] [Player.mk 1 "H" 100]
    [Action.mk "preflop" "H" "folds" none] [] 0

/-- One hand at big blind 2 with hero result 10. -/
def exHandBB2 : Hand := Hand.mk "8" none "T" 1 2 "H" [] [] [] [] 10

/-- Two players at seats 7 and 3, hero "A". -/
def exHandTwoSeats : Hand :=
  Hand.mk "9" none "T" 1 1 "A" [] [Player.mk 7 "B" 50, Player.mk 3 "A" 40] [] [] 0

/-- A hand with an empty player list. -/
def exHandNoPlayers : Hand := Hand.mk "0" none "T" 1 1 "H" [] [] [] [] 0

-- =========================================================
--  Helper lemmas
-- =========================================================

/-- Manual unfolding equation for `actionsLoop` at a cons cell. -/
theorem actionsLoop_cons (street : Option String) (l : List Char) (rest : List (List Char)) :
    actionsLoop street (l :: rest) =
      if isSectionMarker (stripChars l) then actionsLoop (some (streetOf (stripChars l))) rest
      else
        match matchActionLine (stripChars l), street with
        | some (actor, verb, amt), some st =>
          withAmount st actor verb amt (actionsLoop street rest)
        | _, _ => actionsLoop street rest := rfl

theorem round2_ofInt (n : ℤ) : round2 ((n : ℚ)) = (n : ℚ) := by
  unfold round2
  have hf : ⌊(n : ℚ) * 100 + 1 / 2⌋ = n * 100 := by
    rw [Int.floor_eq_iff]
    constructor
    · push_cast
      linarith
    · push_cast
      linarith
  rw [hf]
  push_cast
  ring

theorem round2_zero : round2 0 = 0 := by
  have h := round2_ofInt 0
  simpa using h

theorem round2_nonneg {q : ℚ} (h : 0 ≤ q) : 0 ≤ round2 q := by
  unfold round2
  have h1 : (0 : ℤ) ≤ ⌊q * 100 + 1 / 2⌋ := by
    apply Int.le_floor.mpr
    push_cast
    linarith
  apply div_nonneg _ (by norm_num)
  exact_mod_cast h1

theorem round2_le_100 {q : ℚ} (h : q ≤ 100) : round2 q ≤ 100 := by
  unfold round2
  have h2 : ⌊(10000 : ℚ) + 1 / 2⌋ = 10000 := by
    rw [Int.floor_eq_iff]
    constructor <;> norm_num
  have h1 : ⌊q * 100 + 1 / 2⌋ ≤ 10000 := by
    have hm := Int.floor_mono (show q * 100 + 1 / 2 ≤ (10000 : ℚ) + 1 / 2 by linarith)
    omega
  rw [div_le_iff (by norm_num)]
  have : ((⌊q * 100 + 1 / 2⌋ : ℤ) : ℚ) ≤ (10000 : ℚ) := by exact_mod_cast h1
  linarith

theorem round2_ge_neg100 {q : ℚ} (h : -100 ≤ q) : -100 ≤ round2 q := by
  unfold round2
  have h2 : ⌊(-10000 : ℚ) + 1 / 2⌋ = -10000 := by
    rw [Int.floor_eq_iff]
    constructor <;> norm_num
  have h1 : -10000 ≤ ⌊q * 100 + 1 / 2⌋ := by
    have hm := Int.floor_mono (show (-10000 : ℚ) + 1 / 2 ≤ q * 100 + 1 / 2 by linarith)
    omega
  rw [le_div_iff (by norm_num)]
  have : ((-10000 : ℤ) : ℚ) ≤ ((⌊q * 100 + 1 / 2⌋ : ℤ) : ℚ) := by exact_mod_cast h1
  push_cast at this ⊢
  linarith

theorem ratioBounds (a b : ℕ) (hab : a ≤ b) :
    0 ≤ (a : ℚ) / (((if b = 0 then 1 else b : ℕ)) : ℚ) * 100 ∧
    (a : ℚ) / (((if b = 0 then 1 else b : ℕ)) : ℚ) * 100 ≤ 100 := by
  rcases Nat.eq_zero_or_pos b with hb | hb
  · subst hb
    have ha : a = 0 := Nat.le_zero.mp hab
    subst ha
    norm_num
  · rw [if_neg (by omega)]
    have hb1 : (0 : ℚ) < (b : ℚ) := by exact_mod_cast hb
    constructor
    · positivity
    · have hd : (a : ℚ) / (b : ℚ) ≤ 1 := by
        rw [div_le_one hb1]
        exact_mod_cast hab
      nlinarith

-- =========================================================
--  C5 / C6 / C3 / C1
-- =========================================================

/-- C5: `parse_hand` is a total function into `Option Hand`: it returns
`none` exactly when the `try` body raised, and a hand returned by
`parse_hand` is exactly the complete hand built by the `try` body — no
partially filled record is ever emitted.  (Exception propagation is ruled
out by the embedding: `parse_hand` is total, and every internal raise is
an `Except.error` that this theorem converts to `none`.) -/
theorem c5_parse_contains_failures :
    (∀ (text hero e : String), parseHandCore text hero = Except.error e →
      parse_hand text hero = none) ∧
    (∀ (text hero : String) (h : Hand), parse_hand text hero = some h →
      parseHandCore text hero = Except.ok h) := by
  constructor
  · intro t n e h
    unfold parse_hand
    rw [h]
    rfl
  · intro t n h hp
    unfold parse_hand at hp
    cases hc : parseHandCore t n with
    | ok a =>
      rw [hc] at hp
      simp [Except.toOption] at hp
      rw [hp]
    | error e =>
      rw [hc] at hp
      simp [Except.toOption] at hp

/-- C5 witness: a block with unparsable blinds makes the `try` body raise
at `float("x")`, and the whole hand becomes `none`. -/
theorem c5_parse_contains_failures_witness :
    parse_hand exBadBlindsText "Hero" = none :=
  c5_parse_contains_failures.1 exBadBlindsText "Hero"
    "could not convert string to float" rfl

/-- C6: an aggregator that ingested no hands computes every metric as 0
(without raising — `compute` is total), and its big-blind mean is the
fallback value 1. -/
theorem c6_empty_compute (hero : String) :
    (compute (initAgg hero)).hands = 0 ∧
    (compute (initAgg hero)).vpip_pct = 0 ∧
    (compute (initAgg hero)).pfr_pct = 0 ∧
    (compute (initAgg hero)).vpip_pfr_gap = 0 ∧
    (compute (initAgg hero)).cbet_flop_pct = 0 ∧
    (compute (initAgg hero)).cbet_turn_pct = 0 ∧
    (compute (initAgg hero)).wtsd_pct = 0 ∧
    (compute (initAgg hero)).wsd_pct = 0 ∧
    (compute (initAgg hero)).total_won_chips = 0 ∧
    (compute (initAgg hero)).bb_per_100 = 0 ∧
    avg_bb (initAgg hero) = 1 := by
  refine ⟨rfl, ?_, ?_, ?_, ?_, ?_, ?_, ?_, ?_, ?_, ?_⟩ <;>
    simp [compute, initAgg, avg_bb, round2_zero]

/-- C3 (counterexample): a block whose `Board` line has two card tokens is
not rejected: `parse_hand` returns a hand whose board has length 2. -/
theorem c3_counterexample :
    (parse_hand exShortBoardText "Hero").map Hand.board = some ["Ah", "Kh"] ∧
    (parse_hand exShortBoardText "Hero").map (fun h => h.board.length) = some 2 := by
  constructor <;> decide

/-- C3 (amended): `parse_hand` performs no board-length validation:
whenever it returns a hand, the board is exactly the whitespace-split of
the first `Board [...]` capture, whatever its length. -/
theorem c3_no_board_validation (text hero : String) (h : Hand)
    (hp : parse_hand text hero = some h) : h.board = extractBoard text := by
  unfold parse_hand at hp
  cases hc : parseHandCore text hero with
  | error e =>
    rw [hc] at hp
    simp [Except.toOption] at hp
  | ok a =>
    rw [hc] at hp
    simp [Except.toOption] at hp
    subst hp
    unfold parseHandCore at hc
    cases h1 : extractStakes text with
    | error e => rw [h1] at hc; exact absurd hc (by simp)
    | ok stakes =>
      rw [h1] at hc
      cases h2 : extractPlayers text with
      | error e => rw [h2] at hc; exact absurd hc (by simp)
      | ok players =>
        rw [h2] at hc
        cases h3 : extractActions text with
        | error e => rw [h3] at hc; exact absurd hc (by simp)
        | ok actions =>
          rw [h3] at hc
          cases h4 : extractResult text hero with
          | error e => rw [h4] at hc; exact absurd hc (by simp)
          | ok result =>
            rw [h4] at hc
            simp only [Except.ok.injEq] at hc
            rw [← hc]

/-- C3 (amended) witness: at the two-card board block, the returned hand's
board is the raw capture split. -/
theorem c3_no_board_validation_witness :
    extractBoard exShortBoardText = ["Ah", "Kh"] ∧
    ∃ h, parse_hand exShortBoardText "Hero" = some h ∧ h.board = extractBoard exShortBoardText := by
  have hsome : (parse_hand exShortBoardText "Hero").isSome = true := by decide
  obtain ⟨h, hh⟩ := Option.isSome_iff_exists.mp hsome
  exact ⟨by decide, h, hh, c3_no_board_validation exShortBoardText "Hero" h hh⟩

/-- C1 (counterexample): in a block whose action lines all precede any
section marker, those lines match the action pattern and yet the parsed
hand has an empty action list — they are not tagged "preflop". -/
theorem c1_counterexample :
    (parse_hand exPreMarkerText "Hero").map Hand.actions = some [] ∧
    (matchActionLine "Hero: raises 2".data).isSome = true ∧
    (matchActionLine "Alice: folds".data).isSome = true := by
  refine ⟨by decide, by decide, by decide⟩

/-- C1 (amended): the street state starts as `none` (undefined), so action
lines before the first section marker are dropped; "preflop" tagging
begins only at the first section-marker line that mentions none of
FLOP/TURN/RIVER. -/
theorem c1_street_starts_none :
    (∀ lines : List (List Char),
      (∀ l ∈ lines, isSectionMarker (stripChars l) = false) →
      actionsLoop none lines = Except.ok []) ∧
    (∀ (l : List Char) (rest : List (List Char)),
      isSectionMarker (stripChars l) = true →
      containsSub "FLOP".data (stripChars l) = false →
      containsSub "TURN".data (stripChars l) = false →
      containsSub "RIVER".data (stripChars l) = false →
      actionsLoop none (l :: rest) = actionsLoop (some "preflop") rest) ∧
    (∀ (st : String) (l : List Char) (rest : List (List Char))
      (actor verb : List Char) (amt : Option (List Char)),
      isSectionMarker (stripChars l) = false →
      matchActionLine (stripChars l) = some (actor, verb, amt) →
      actionsLoop (some st) (l :: rest) =
        withAmount st actor verb amt (actionsLoop (some st) rest)) := by
  refine ⟨?_, ?_, ?_⟩
  · intro lines h
    induction lines with
    | nil => rfl
    | cons l rest ih =>
      have hl := h l (by simp)
      have hr : ∀ x ∈ rest, isSectionMarker (stripChars x) = false := by
        intro x hx
        exact h x (by simp [hx])
      rw [actionsLoop_cons]
      rw [if_neg (by simp [hl])]
      cases hma : matchActionLine (stripChars l) with
      | none => simpa using ih hr
      | some x => simpa using ih hr
  · intro l rest h1 h2 h3 h4
    rw [actionsLoop_cons]
    simp [h1, streetOf, h2, h3, h4]
  · intro st l rest actor verb amt h1 h2
    rw [actionsLoop_cons]
    rw [if_neg (by simp [h1]), h2]

/-- C1 (amended) witness: a lone pre-marker action line yields no actions,
a `*** HOLE CARDS ***` header switches the state to "preflop", and once a
street is active a matched action line is appended tagged with it. -/
theorem c1_street_starts_none_witness :
    actionsLoop none ["Alice: folds".data] = Except.ok [] ∧
    actionsLoop none ("*** HOLE CARDS ***".data :: ["Hero: bets 5".data]) =
      actionsLoop (some "preflop") ["Hero: bets 5".data] ∧
    actionsLoop (some "preflop") ["Alice: folds".data] =
      withAmount "preflop" "Alice".data "folds".data none (actionsLoop (some "preflop") []) :=
  ⟨c1_street_starts_none.1 ["Alice: folds".data] (by decide),
   c1_street_starts_none.2.1 "*** HOLE CARDS ***".data ["Hero: bets 5".data]
     (by decide) (by decide) (by decide) (by decide),
   c1_street_starts_none.2.2 "preflop" "Alice: folds".data [] "Alice".data "folds".data
     none (by decide) (by decide)⟩

-- =========================================================
--  add_hand stepping lemmas
-- =========================================================

theorem upVpip_eq (hp : String) (dv : Bool) (s : StatsAggregator) :
    upVpip hp dv s =
      { s with
        vpip := s.vpip + (if dv then 1 else 0)
        pos_stats := if dv then posIncr s.pos_stats hp "vpip" else s.pos_stats } := by
  unfold upVpip
  split_ifs <;> simp

theorem upPfr_eq (hp : String) (dp : Bool) (s : StatsAggregator) :
    upPfr hp dp s =
      { s with
        pfr := s.pfr + (if dp then 1 else 0)
        pos_stats := if dp then posIncr s.pos_stats hp "pfr" else s.pos_stats } := by
  unfold upPfr
  split_ifs <;> simp

theorem upSawFlop_eq (fa : List Action) (s : StatsAggregator) :
    upSawFlop fa s = { s with saw_flop := s.saw_flop + (if fa.isEmpty then 0 else 1) } := by
  unfold upSawFlop
  split_ifs <;> simp

theorem upShowdown_eq (hand : Hand) (s : StatsAggregator) :
    upShowdown hand s =
      { s with
        wtsd := s.wtsd + (if !hand.board.isEmpty && hand.board.length == 5 then 1 else 0)
        wsd_wins := s.wsd_wins +
          (if !hand.board.isEmpty && hand.board.length == 5 then
            (if (0 : ℚ) < hand.hero_result then 1 else 0) else 0) } := by
  unfold upShowdown
  split_ifs <;> simp

theorem upCbetFlop_eq (hero hp : String) (dp : Bool) (fa : List Action)
    (s : StatsAggregator) :
    upCbetFlop hero hp dp fa s =
      { s with
        cbet_flop_opportunities :=
          s.cbet_flop_opportunities + (if dp && !fa.isEmpty then 1 else 0)
        cbet_flop := s.cbet_flop +
          (if dp && !fa.isEmpty then
            (if fa.head?.map Action.actor == some hero then 1 else 0) else 0)
        pos_stats :=
          if dp && !fa.isEmpty then
            (if fa.head?.map Action.actor == some hero then
              posIncr s.pos_stats hp "cbet_flop"
            else s.pos_stats)
          else s.pos_stats } := by
  unfold upCbetFlop
  split_ifs <;> simp

theorem upCbetTurn_eq (hero hp : String) (dp : Bool) (ta : List Action)
    (s : StatsAggregator) :
    upCbetTurn hero hp dp ta s =
      { s with
        cbet_turn_opportunities :=
          s.cbet_turn_opportunities + (if dp && !ta.isEmpty then 1 else 0)
        cbet_turn := s.cbet_turn +
          (if dp && !ta.isEmpty then
            (if ta.head?.map Action.actor == some hero then 1 else 0) else 0)
        pos_stats :=
          if dp && !ta.isEmpty then
            (if ta.head?.map Action.actor == some hero then
              posIncr s.pos_stats hp "cbet_turn"
            else s.pos_stats)
          else s.pos_stats } := by
  unfold upCbetTurn
  split_ifs <;> simp

/-- Field-by-field description of one `add_hand` step (scalar counters). -/
theorem add_hand_counts (s : StatsAggregator) (hand : Hand) :
    (add_hand s hand).hero = s.hero ∧
    (add_hand s hand).hands = s.hands ++ [hand] ∧
    (add_hand s hand).hands_count = s.hands_count + 1 ∧
    (add_hand s hand).total_won_chips = s.total_won_chips + hand.hero_result ∧
    (add_hand s hand).vpip = s.vpip + (if did_vpip s.hero hand then 1 else 0) ∧
    (add_hand s hand).pfr = s.pfr + (if did_pfr s.hero hand then 1 else 0) ∧
    (add_hand s hand).saw_flop =
      s.saw_flop + (if (flopActions hand).isEmpty then 0 else 1) ∧
    (add_hand s hand).wtsd =
      s.wtsd + (if !hand.board.isEmpty && hand.board.length == 5 then 1 else 0) ∧
    (add_hand s hand).wsd_wins =
      s.wsd_wins +
        (if !hand.board.isEmpty && hand.board.length == 5 then
          (if (0 : ℚ) < hand.hero_result then 1 else 0) else 0) ∧
    (add_hand s hand).cbet_flop_opportunities =
      s.cbet_flop_opportunities +
        (if did_pfr s.hero hand && !(flopActions hand).isEmpty then 1 else 0) ∧
    (add_hand s hand).cbet_flop =
      s.cbet_flop +
        (if did_pfr s.hero hand && !(flopActions hand).isEmpty then
          (if (flopActions hand).head?.map Action.actor == some s.hero then 1 else 0)
        else 0) ∧
    (add_hand s hand).cbet_turn_opportunities =
      s.cbet_turn_opportunities +
        (if did_pfr s.hero hand && !(turnActions hand).isEmpty then 1 else 0) ∧
    (add_hand s hand).cbet_turn =
      s.cbet_turn +
        (if did_pfr s.hero hand && !(turnActions hand).isEmpty then
          (if (turnActions hand).head?.map Action.actor == some s.hero then 1 else 0)
        else 0) := by
  simp [add_hand, upCbetTurn_eq, upCbetFlop_eq, upShowdown_eq, upSawFlop_eq, upPfr_eq,
    upVpip_eq, upBase]

theorem alookup_nil {b : Type} (k : String) : alookup (b := b) k [] = none := rfl

theorem alookup_cons_self {b : Type} (k : String) (v : b) (t : List (String × b)) :
    alookup k ((k, v) :: t) = some v := by
  simp [alookup]

theorem alookup_cons_ne {b : Type} {k1 k : String} (h : k1 ≠ k) (v : b)
    (t : List (String × b)) : alookup k ((k1, v) :: t) = alookup k t := by
  simp [alookup, h]

theorem assocIncr_nil (k : String) : assocIncr [] k = [(k, 1)] := rfl

theorem assocIncr_cons_self (k : String) (v : ℕ) (t : List (String × ℕ)) :
    assocIncr ((k, v) :: t) k = (k, v + 1) :: t := by
  simp [assocIncr]

theorem assocIncr_cons_ne {k1 k : String} (h : k1 ≠ k) (v : ℕ) (t : List (String × ℕ)) :
    assocIncr ((k1, v) :: t) k = (k1, v) :: assocIncr t k := by
  simp [assocIncr, h]

theorem posIncr_nil (pos k : String) : posIncr [] pos k = [(pos, [(k, 1)])] := rfl

theorem posIncr_cons_self (pos : String) (c : List (String × ℕ))
    (tl : List (String × List (String × ℕ))) (k : String) :
    posIncr ((pos, c) :: tl) pos k = (pos, assocIncr c k) :: tl := by
  simp [posIncr]

theorem posIncr_cons_ne {p : String} (c : List (String × ℕ))
    (tl : List (String × List (String × ℕ))) {pos : String} (k : String)
    (hp : ¬p = pos) : posIncr ((p, c) :: tl) pos k = (p, c) :: posIncr tl pos k := by
  simp [posIncr, hp]

theorem posCounter_cons_ne {p p1 : String} {c : List (String × ℕ)}
    (tl : List (String × List (String × ℕ))) (h : ¬p = p1) :
    posCounter ((p, c) :: tl) p1 = posCounter tl p1 := by
  simp [posCounter, alookup, h]

theorem posCounter_posIncr :
    ∀ (ps : List (String × List (String × ℕ))) (pos k p1 : String),
      posCounter (posIncr ps pos k) p1 =
        if p1 = pos then assocIncr (posCounter ps pos) k else posCounter ps p1
  | [], pos, k, p1 => by
    by_cases h : p1 = pos
    · subst h
      simp [posIncr_nil, posCounter, alookup_cons_self, alookup_nil, assocIncr_nil]
    · rw [if_neg h]
      simp [posIncr_nil, posCounter, alookup_cons_ne (Ne.symm h), alookup_nil]
  | (p, c) :: tl, pos, k, p1 => by
    by_cases hp : p = pos
    · subst hp
      by_cases h : p1 = p
      · subst h
        simp [posIncr_cons_self, posCounter, alookup_cons_self]
      · rw [if_neg h, posIncr_cons_self]
        simp [posCounter, alookup_cons_ne (Ne.symm h)]
    · rw [posIncr_cons_ne c tl k hp]
      by_cases h : p1 = p
      · subst h
        rw [if_neg (fun hh : p1 = pos => hp hh)]
        simp [posCounter, alookup_cons_self]
      · rw [posCounter_cons_ne _ (fun hh : p = p1 => h hh.symm),
            posCounter_cons_ne tl (fun hh : p = p1 => h hh.symm),
            posCounter_cons_ne tl hp, posCounter_posIncr tl pos k p1]

theorem alookup_assocIncr_other :
    ∀ (c : List (String × ℕ)) (k k1 : String), k1 ≠ k →
      alookup k1 (assocIncr c k) = alookup k1 c
  | [], k, k1, h => by
    rw [assocIncr_nil, alookup_cons_ne (Ne.symm h)]
  | (k2, v) :: t, k, k1, h => by
    by_cases h2 : k2 = k
    · subst h2
      rw [assocIncr_cons_self, alookup_cons_ne (Ne.symm h), alookup_cons_ne (Ne.symm h)]
    · rw [assocIncr_cons_ne h2]
      by_cases h3 : k2 = k1
      · subst h3
        rw [alookup_cons_self, alookup_cons_self]
      · rw [alookup_cons_ne h3, alookup_cons_ne h3, alookup_assocIncr_other t k k1 h]

theorem cntGet_assocIncr_self :
    ∀ (c : List (String × ℕ)) (k : String) (d : ℕ),
      cntGet (assocIncr c k) k d = cntGet c k 0 + 1
  | [], k, d => by
    simp [cntGet, assocIncr_nil, alookup_cons_self, alookup_nil]
  | (k1, v) :: t, k, d => by
    by_cases h : k1 = k
    · subst h
      simp [cntGet, assocIncr_cons_self, alookup_cons_self]
    · rw [cntGet, cntGet, assocIncr_cons_ne h, alookup_cons_ne h, alookup_cons_ne h]
      exact cntGet_assocIncr_self t k d

theorem cntGet_assocIncr_other (c : List (String × ℕ)) (k k1 : String) (h : k1 ≠ k)
    (d : ℕ) : cntGet (assocIncr c k) k1 d = cntGet c k1 d := by
  rw [cntGet, cntGet, alookup_assocIncr_other c k k1 h]

/-- One `add_hand` step adds exactly 1 to the "hands" counter of hero's
resolved position. -/
theorem add_hand_pos_hands (s : StatsAggregator) (hand : Hand) :
    cntGet (posCounter (add_hand s hand).pos_stats (hero_position s.hero hand)) "hands" 0 =
      cntGet (posCounter s.pos_stats (hero_position s.hero hand)) "hands" 0 + 1 := by
  have hvp : ("hands" : String) ≠ "vpip" := by decide
  have hpf : ("hands" : String) ≠ "pfr" := by decide
  have hcf : ("hands" : String) ≠ "cbet_flop" := by decide
  have hct : ("hands" : String) ≠ "cbet_turn" := by decide
  simp only [add_hand, upCbetTurn_eq, upCbetFlop_eq, upShowdown_eq, upSawFlop_eq, upPfr_eq,
    upVpip_eq, upBase]
  split_ifs <;>
    simp [posCounter_posIncr, cntGet_assocIncr_self, cntGet_assocIncr_other, hvp, hpf, hcf, hct]

/-- One `add_hand` step adds to the positional "cbet_flop" counter exactly
under the c-bet hit condition. -/
theorem add_hand_pos_cbet_flop (s : StatsAggregator) (hand : Hand) :
    cntGet (posCounter (add_hand s hand).pos_stats (hero_position s.hero hand)) "cbet_flop" 0 =
      cntGet (posCounter s.pos_stats (hero_position s.hero hand)) "cbet_flop" 0 +
        (if did_pfr s.hero hand && !(flopActions hand).isEmpty then
          (if (flopActions hand).head?.map Action.actor == some s.hero then 1 else 0)
        else 0) := by
  have hh : ("cbet_flop" : String) ≠ "hands" := by decide
  have hvp : ("cbet_flop" : String) ≠ "vpip" := by decide
  have hpf : ("cbet_flop" : String) ≠ "pfr" := by decide
  have hct : ("cbet_flop" : String) ≠ "cbet_turn" := by decide
  simp only [add_hand, upCbetTurn_eq, upCbetFlop_eq, upShowdown_eq, upSawFlop_eq, upPfr_eq,
    upVpip_eq, upBase]
  split_ifs <;>
    simp [posCounter_posIncr, cntGet_assocIncr_self, cntGet_assocIncr_other, hh, hvp, hpf, hct]

-- =========================================================
--  compute projections and fold facts
-- =========================================================

theorem compute_vpip_pct (s : StatsAggregator) :
    (compute s).vpip_pct =
      round2 ((s.vpip : ℚ) /
        (((if s.hands_count = 0 then 1 else s.hands_count : ℕ)) : ℚ) * 100) := rfl

theorem compute_pfr_pct (s : StatsAggregator) :
    (compute s).pfr_pct =
      round2 ((s.pfr : ℚ) /
        (((if s.hands_count = 0 then 1 else s.hands_count : ℕ)) : ℚ) * 100) := rfl

theorem compute_gap (s : StatsAggregator) :
    (compute s).vpip_pfr_gap = round2 ((compute s).vpip_pct - (compute s).pfr_pct) := rfl

theorem compute_cbet_flop_pct (s : StatsAggregator) :
    (compute s).cbet_flop_pct =
      round2 (if s.cbet_flop_opportunities ≠ 0 then
        (s.cbet_flop : ℚ) / (s.cbet_flop_opportunities : ℚ) * 100 else 0) := rfl

theorem compute_cbet_turn_pct (s : StatsAggregator) :
    (compute s).cbet_turn_pct =
      round2 (if s.cbet_turn_opportunities ≠ 0 then
        (s.cbet_turn : ℚ) / (s.cbet_turn_opportunities : ℚ) * 100 else 0) := rfl

theorem compute_wtsd_pct (s : StatsAggregator) :
    (compute s).wtsd_pct =
      round2 ((s.wtsd : ℚ) /
        (((if s.saw_flop = 0 then 1 else s.saw_flop : ℕ)) : ℚ) * 100) := rfl

theorem compute_wsd_pct (s : StatsAggregator) :
    (compute s).wsd_pct =
      round2 ((s.wsd_wins : ℚ) /
        (((if s.wtsd = 0 then 1 else s.wtsd : ℕ)) : ℚ) * 100) := rfl

theorem compute_bb_per_100 (s : StatsAggregator) :
    (compute s).bb_per_100 =
      round2 (s.total_won_chips / avg_bb s * 100 /
        (((if s.hands_count = 0 then 1 else s.hands_count : ℕ)) : ℚ)) := rfl

theorem foldl_add_hand_facts :
    ∀ (hs : List Hand) (s : StatsAggregator),
      (hs.foldl add_hand s).hero = s.hero ∧
      (hs.foldl add_hand s).hands = s.hands ++ hs ∧
      (hs.foldl add_hand s).hands_count = s.hands_count + hs.length ∧
      (hs.foldl add_hand s).total_won_chips =
        s.total_won_chips + (hs.map Hand.hero_result).sum
  | [], s => by simp
  | h :: t, s => by
    obtain ⟨e1, e2, e3, e4⟩ := foldl_add_hand_facts t (add_hand s h)
    obtain ⟨a1, a2, a3, a4, -, -, -, -, -, -, -, -, -⟩ := add_hand_counts s h
    refine ⟨?_, ?_, ?_, ?_⟩
    · rw [List.foldl_cons, e1, a1]
    · rw [List.foldl_cons, e2, a2]
      simp
    · rw [List.foldl_cons, e3, a3]
      simp [Nat.add_assoc, Nat.add_comm 1]
    · rw [List.foldl_cons, e4, a4]
      simp [add_assoc]

/-- The counter inequalities maintained by ingestion. -/
def StatsInv (s : StatsAggregator) : Prop :=
  s.vpip ≤ s.hands_count ∧ s.pfr ≤ s.hands_count ∧
    s.cbet_flop ≤ s.cbet_flop_opportunities ∧
    s.cbet_turn ≤ s.cbet_turn_opportunities ∧ s.wsd_wins ≤ s.wtsd

theorem add_hand_StatsInv (s : StatsAggregator) (hand : Hand) (h : StatsInv s) :
    StatsInv (add_hand s hand) := by
  obtain ⟨h1, h2, h3, h4, h5⟩ := h
  obtain ⟨-, -, a3, -, a5, a6, -, a8, a9, a10, a11, a12, a13⟩ := add_hand_counts s hand
  refine ⟨?_, ?_, ?_, ?_, ?_⟩ <;>
    first
    | (rw [a5, a3]; split_ifs <;> omega)
    | (rw [a6, a3]; split_ifs <;> omega)
    | (rw [a11, a10]; split_ifs <;> omega)
    | (rw [a13, a12]; split_ifs <;> omega)
    | (rw [a9, a8]; split_ifs <;> omega)

theorem foldl_StatsInv : ∀ (hs : List Hand) (s : StatsAggregator),
    StatsInv s → StatsInv (hs.foldl add_hand s)
  | [], s, h => h
  | hd :: t, s, h => by
    rw [List.foldl_cons]
    exact foldl_StatsInv t (add_hand s hd) (add_hand_StatsInv s hd h)

theorem ingestAll_StatsInv (hero : String) (hs : List Hand) :
    StatsInv (ingestAll hero hs) := by
  apply foldl_StatsInv
  refine ⟨?_, ?_, ?_, ?_, ?_⟩ <;> simp [initAgg]

theorem ratioBounds2 (a b : ℕ) (hab : a ≤ b) :
    0 ≤ (if b ≠ 0 then (a : ℚ) / (b : ℚ) * 100 else 0) ∧
    (if b ≠ 0 then (a : ℚ) / (b : ℚ) * 100 else 0) ≤ 100 := by
  by_cases hb : b = 0
  · simp [hb]
  · rw [if_pos hb]
    have hb1 : (0 : ℚ) < (b : ℚ) := by
      have : 0 < b := Nat.pos_of_ne_zero hb
      exact_mod_cast this
    constructor
    · positivity
    · have hd : (a : ℚ) / (b : ℚ) ≤ 1 := by
        rw [div_le_one hb1]
        exact_mod_cast hab
      nlinarith

/-- Bounds of a counter ratio against the `x or 1` guarded denominator. -/
theorem ratioPct_bounds (a b : ℕ) (hab : a ≤ b) :
    0 ≤ round2 ((a : ℚ) / (((if b = 0 then 1 else b : ℕ)) : ℚ) * 100) ∧
    round2 ((a : ℚ) / (((if b = 0 then 1 else b : ℕ)) : ℚ) * 100) ≤ 100 := by
  obtain ⟨hl, hr⟩ := ratioBounds a b hab
  exact ⟨round2_nonneg hl, round2_le_100 hr⟩

-- =========================================================
--  C7 / C8 / C2
-- =========================================================

/-- C7: one ingestion increments the flop c-bet opportunity counter iff
hero was PFR and the hand has at least one flop action, and in that case
it additionally increments the global and positional c-bet hit counters
iff the very first flop action's actor is hero. -/
theorem c7_cbet_flop_rule (s : StatsAggregator) (hand : Hand) :
    (add_hand s hand).cbet_flop_opportunities =
      s.cbet_flop_opportunities +
        (if did_pfr s.hero hand ∧ flopActions hand ≠ [] then 1 else 0) ∧
    (add_hand s hand).cbet_flop =
      s.cbet_flop +
        (if did_pfr s.hero hand ∧ flopActions hand ≠ [] ∧
            (flopActions hand).head?.map Action.actor = some s.hero then 1 else 0) ∧
    cntGet (posCounter (add_hand s hand).pos_stats (hero_position s.hero hand))
        "cbet_flop" 0 =
      cntGet (posCounter s.pos_stats (hero_position s.hero hand)) "cbet_flop" 0 +
        (if did_pfr s.hero hand ∧ flopActions hand ≠ [] ∧
            (flopActions hand).head?.map Action.actor = some s.hero then 1 else 0) := by
  obtain ⟨-, -, -, -, -, -, -, -, -, a10, a11, -, -⟩ := add_hand_counts s hand
  have hpos := add_hand_pos_cbet_flop s hand
  refine ⟨?_, ?_, ?_⟩
  · rw [a10]
    by_cases h1 : did_pfr s.hero hand = true <;> by_cases h2 : flopActions hand = [] <;>
      simp [h1, h2]
  · rw [a11]
    by_cases h1 : did_pfr s.hero hand = true <;> by_cases h2 : flopActions hand = [] <;>
      by_cases h3 : (flopActions hand).head?.map Action.actor = some s.hero <;>
        simp [h1, h2, h3]
  · rw [hpos]
    by_cases h1 : did_pfr s.hero hand = true <;> by_cases h2 : flopActions hand = [] <;>
      by_cases h3 : (flopActions hand).head?.map Action.actor = some s.hero <;>
        simp [h1, h2, h3]

/-- C8: with at least one ingested hand, `bb_per_100` is exactly the spec
formula: cumulative result over the arithmetic mean big blind, times 100,
divided by the hand count, rounded to 2 decimals. -/
theorem c8_bb_per_100 (hero : String) (hs : List Hand) (hne : hs ≠ []) :
    (compute (ingestAll hero hs)).bb_per_100 = specBBPer100 hs := by
  obtain ⟨-, e2, e3, e4⟩ := foldl_add_hand_facts hs (initAgg hero)
  have hhands : (ingestAll hero hs).hands = hs := by
    rw [ingestAll] at *
    simpa [initAgg] using e2
  have hcount : (ingestAll hero hs).hands_count = hs.length := by
    rw [ingestAll] at *
    simpa [initAgg] using e3
  have htotal : (ingestAll hero hs).total_won_chips = (hs.map Hand.hero_result).sum := by
    rw [ingestAll] at *
    simpa [initAgg] using e4
  rw [compute_bb_per_100, specBBPer100, htotal, hcount]
  rw [avg_bb, hhands, if_neg (by simpa using hne)]
  rw [if_neg (by simpa using fun h => hne (List.length_eq_zero.mp h))]

/-- C8 witness: at a single ingested hand with big blind 2 and result 10,
the theorem applies. -/
theorem c8_bb_per_100_witness :
    ([exHandBB2] : List Hand) ≠ [] ∧
    (compute (ingestAll "H" [exHandBB2])).bb_per_100 = specBBPer100 [exHandBB2] :=
  ⟨by simp, c8_bb_per_100 "H" [exHandBB2] (by simp)⟩

/-- C2 (counterexample): after ingesting two spec-conforming hands whose
boards have 5 cards but which record no flop action, `wtsd_pct` computes
to 200 — a percentage above 100. -/
theorem c2_counterexample :
    (compute (ingestAll "H" [exShowdownNoFlop, exShowdownNoFlop])).wtsd_pct = 200 ∧
    ¬(compute (ingestAll "H" [exShowdownNoFlop, exShowdownNoFlop])).wtsd_pct ≤ 100 := by
  have h1 : (ingestAll "H" [exShowdownNoFlop, exShowdownNoFlop]).wtsd = 2 := by decide
  have h2 : (ingestAll "H" [exShowdownNoFlop, exShowdownNoFlop]).saw_flop = 0 := by decide
  have h3 : (compute (ingestAll "H" [exShowdownNoFlop, exShowdownNoFlop])).wtsd_pct = 200 := by
    rw [compute_wtsd_pct, h1, h2]
    rw [show ((2 : ℕ) : ℚ) / (((if (0 : ℕ) = 0 then 1 else 0 : ℕ)) : ℚ) * 100 =
        ((200 : ℤ) : ℚ) by norm_num]
    rw [round2_ofInt]
    norm_num
  rw [h3]
  norm_num

/-- C2 (amended): every percentage `compute` returns is within [0, 100]
and the gap within [−100, 100], except `wtsd_pct`, which is only
guaranteed nonnegative: a hand counts toward `wtsd` (5-card board)
without necessarily counting toward `saw_flop` (a recorded flop action),
so `wtsd_pct` can exceed 100. -/
theorem c2_percentage_bounds (hero : String) (hs : List Hand) :
    (0 ≤ (compute (ingestAll hero hs)).vpip_pct ∧
      (compute (ingestAll hero hs)).vpip_pct ≤ 100) ∧
    (0 ≤ (compute (ingestAll hero hs)).pfr_pct ∧
      (compute (ingestAll hero hs)).pfr_pct ≤ 100) ∧
    (-100 ≤ (compute (ingestAll hero hs)).vpip_pfr_gap ∧
      (compute (ingestAll hero hs)).vpip_pfr_gap ≤ 100) ∧
    (0 ≤ (compute (ingestAll hero hs)).cbet_flop_pct ∧
      (compute (ingestAll hero hs)).cbet_flop_pct ≤ 100) ∧
    (0 ≤ (compute (ingestAll hero hs)).cbet_turn_pct ∧
      (compute (ingestAll hero hs)).cbet_turn_pct ≤ 100) ∧
    (0 ≤ (compute (ingestAll hero hs)).wsd_pct ∧
      (compute (ingestAll hero hs)).wsd_pct ≤ 100) ∧
    0 ≤ (compute (ingestAll hero hs)).wtsd_pct := by
  obtain ⟨i1, i2, i3, i4, i5⟩ := ingestAll_StatsInv hero hs
  have hv := ratioPct_bounds _ _ i1
  rw [← compute_vpip_pct] at hv
  have hp := ratioPct_bounds _ _ i2
  rw [← compute_pfr_pct] at hp
  have hgap : -100 ≤ (compute (ingestAll hero hs)).vpip_pfr_gap ∧
      (compute (ingestAll hero hs)).vpip_pfr_gap ≤ 100 := by
    rw [compute_gap]
    constructor
    · exact round2_ge_neg100 (by linarith [hv.1, hv.2, hp.1, hp.2])
    · exact round2_le_100 (by linarith [hv.1, hv.2, hp.1, hp.2])
  have hcf : 0 ≤ (compute (ingestAll hero hs)).cbet_flop_pct ∧
      (compute (ingestAll hero hs)).cbet_flop_pct ≤ 100 := by
    rw [compute_cbet_flop_pct]
    obtain ⟨hl, hr⟩ := ratioBounds2 _ _ i3
    exact ⟨round2_nonneg hl, round2_le_100 hr⟩
  have hct : 0 ≤ (compute (ingestAll hero hs)).cbet_turn_pct ∧
      (compute (ingestAll hero hs)).cbet_turn_pct ≤ 100 := by
    rw [compute_cbet_turn_pct]
    obtain ⟨hl, hr⟩ := ratioBounds2 _ _ i4
    exact ⟨round2_nonneg hl, round2_le_100 hr⟩
  have hws := ratioPct_bounds _ _ i5
  rw [← compute_wsd_pct] at hws
  have hwt : 0 ≤ (compute (ingestAll hero hs)).wtsd_pct := by
    rw [compute_wtsd_pct]
    apply round2_nonneg
    positivity
  exact ⟨hv, hp, hgap, hcf, hct, hws, hwt⟩

-- =========================================================
--  C9: position resolver
-- =========================================================

theorem alookup_dictSet_self :
    ∀ (m : List (String × String)) (k v : String), alookup k (dictSet m k v) = some v
  | [], k, v => by simp [dictSet, alookup_cons_self]
  | (k1, v1) :: t, k, v => by
    by_cases h : k1 = k
    · subst h
      simp [dictSet, alookup_cons_self]
    · rw [show dictSet ((k1, v1) :: t) k v = (k1, v1) :: dictSet t k v from by
        simp [dictSet, h]]
      rw [alookup_cons_ne h, alookup_dictSet_self t k v]

theorem alookup_dictSet_other :
    ∀ (m : List (String × String)) (k v k1 : String), k1 ≠ k →
      alookup k1 (dictSet m k v) = alookup k1 m
  | [], k, v, k1, h => by
    rw [show dictSet [] k v = [(k, v)] from rfl, alookup_cons_ne (Ne.symm h)]
  | (k2, v2) :: t, k, v, k1, h => by
    by_cases h2 : k2 = k
    · subst h2
      rw [show dictSet ((k2, v2) :: t) k2 v = (k2, v) :: t from by simp [dictSet]]
      by_cases h3 : k2 = k1
      · exact absurd h3.symm h
      · rw [alookup_cons_ne h3, alookup_cons_ne h3]
    · rw [show dictSet ((k2, v2) :: t) k v = (k2, v2) :: dictSet t k v from by
        simp [dictSet, h2]]
      by_cases h3 : k2 = k1
      · subst h3
        rw [alookup_cons_self, alookup_cons_self]
      · rw [alookup_cons_ne h3, alookup_cons_ne h3, alookup_dictSet_other t k v k1 h]

theorem alookup_foldl_dictSet_ne :
    ∀ (l : List (ℕ × Player)) (m : List (String × String)) (nm : String),
      (∀ ip ∈ l, ip.2.name ≠ nm) →
      alookup nm (l.foldl (fun acc jq => dictSet acc jq.2.name (posLabel jq.1)) m) =
        alookup nm m
  | [], _, _, _ => rfl
  | (j, q) :: t, m, nm, h => by
    rw [List.foldl_cons]
    rw [alookup_foldl_dictSet_ne t _ nm (fun ip hip => h ip (List.mem_cons_of_mem _ hip))]
    exact alookup_dictSet_other m q.name (posLabel j) nm
      (Ne.symm (h (j, q) (List.mem_cons_self _ _)))

theorem buildMap_lookup :
    ∀ (l : List (ℕ × Player)) (m : List (String × String)),
      (l.map (fun ip => ip.2.name)).Nodup →
      (∀ ip ∈ l, alookup ip.2.name m = none) →
      ∀ ip ∈ l,
        alookup ip.2.name
            (l.foldl (fun acc jq => dictSet acc jq.2.name (posLabel jq.1)) m) =
          some (posLabel ip.1)
  | [], _, _, _, ip, hip => absurd hip (List.not_mem_nil ip)
  | (j, q) :: t, m, hnd, hfresh, ip, hip => by
    have hnd2 : (q.name :: t.map (fun ip : ℕ × Player => ip.2.name)).Nodup := hnd
    have hnds := List.nodup_cons.mp hnd2
    rw [List.foldl_cons]
    rcases List.mem_cons.mp hip with rfl | hmem
    · have hne : ∀ jp ∈ t, jp.2.name ≠ q.name := by
        intro jp hjp heq
        exact hnds.1 (heq ▸ List.mem_map_of_mem (fun ip => ip.2.name) hjp)
      rw [alookup_foldl_dictSet_ne t _ _ hne, alookup_dictSet_self]
    · have hfresh2 : ∀ jp ∈ t, alookup jp.2.name (dictSet m q.name (posLabel j)) = none := by
        intro jp hjp
        have hne : jp.2.name ≠ q.name := by
          intro heq
          exact hnds.1 (heq ▸ List.mem_map_of_mem (fun ip => ip.2.name) hjp)
        rw [alookup_dictSet_other m q.name (posLabel j) jp.2.name hne]
        exact hfresh jp (List.mem_cons_of_mem _ hjp)
      exact buildMap_lookup t _ hnds.2 hfresh2 ip hmem

/-- C9: `determine_positions` sorts the players by seat ascending (the
sorted list is a permutation of the players, nondecreasing in seat — the
stable sort that `sorted` performs) and maps the player at sorted index
`i` to label `positions[i % 6]` of the fixed vocabulary. -/
theorem c9_positions (hand : Hand) :
    (sorted_players hand).Perm hand.players ∧
    (sorted_players hand).Pairwise (fun p q => p.seat ≤ q.seat) ∧
    (∀ (i : ℕ) (p : Player), (hand.players.map Player.name).Nodup →
      (i, p) ∈ (sorted_players hand).enum →
      alookup p.name (determine_positions hand) = some (posLabel i)) := by
  refine ⟨List.perm_insertionSort _ _, ?_, ?_⟩
  · haveI : IsTotal Player (fun p q => p.seat ≤ q.seat) :=
      ⟨fun a b => Nat.le_total a.seat b.seat⟩
    haveI : IsTrans Player (fun p q => p.seat ≤ q.seat) :=
      ⟨fun a b c hab hbc => le_trans hab hbc⟩
    exact List.sorted_insertionSort _ _
  · intro i p hnd hmem
    have hne : ¬hand.players.isEmpty := by
      intro hemp
      have hnil : hand.players = [] := by
        cases hh : hand.players with
        | nil => rfl
        | cons a b => rw [hh] at hemp; simp at hemp
      rw [sorted_players, hnil] at hmem
      simp [List.insertionSort] at hmem
    rw [determine_positions, if_neg hne]
    apply buildMap_lookup _ [] ?_ (fun _ _ => rfl) (i, p) hmem
    have hmap : (sorted_players hand).enum.map (fun ip => ip.2.name) =
        (sorted_players hand).map Player.name := by
      rw [show (fun ip : ℕ × Player => ip.2.name) = (Player.name ∘ Prod.snd) from rfl]
      rw [← List.map_map, List.enum_map_snd]
    rw [hmap]
    exact ((List.perm_insertionSort _ _).map Player.name).nodup_iff.mpr hnd

/-- C9 witness: with seats 7 and 3, the seat-3 player gets BTN and the
seat-7 player (sorted index 1) gets SB. -/
theorem c9_positions_witness :
    alookup "B" (determine_positions exHandTwoSeats) = some "SB" := by
  have h := (c9_positions exHandTwoSeats).2.2 1 (Player.mk 7 "B" 50) (by decide) (by decide)
  rwa [show posLabel 1 = "SB" from rfl] at h

-- =========================================================
--  C10: the UNKNOWN position
-- =========================================================

theorem determine_positions_none (hand : Hand) (nm : String)
    (h : nm ∉ hand.players.map Player.name) :
    alookup nm (determine_positions hand) = none := by
  rw [determine_positions]
  split_ifs with he
  · rfl
  · rw [alookup_foldl_dictSet_ne]
    · rfl
    · intro ip hip heq
      have hp2 : ip.2 ∈ sorted_players hand := by
        have hm := List.mem_map_of_mem Prod.snd hip
        rwa [List.enum_map_snd] at hm
      have hp3 : ip.2 ∈ hand.players := (List.perm_insertionSort _ _).mem_iff.mp hp2
      exact h (heq ▸ List.mem_map_of_mem Player.name hp3)

theorem hero_position_unknown (hero : String) (hand : Hand)
    (h : hero ∉ hand.players.map Player.name) : hero_position hero hand = "UNKNOWN" := by
  rw [hero_position, determine_positions_none hand hero h]
  rfl

/-- A keyed `filterMap` (the shape of `compute_positional`) found through
`alookup`: if the source mapping has `pos ↦ cnt` (first occurrence) and
the body keeps it, the output mapping has `pos` too. -/
theorem alookup_filterMap_keyed {A B : Type}
    (f : String × A → Option (String × B))
    (hkey : ∀ x y, f x = some y → y.1 = x.1) :
    ∀ (l : List (String × A)) (pos : String) (cnt : A),
      alookup pos l = some cnt → (∃ y, f (pos, cnt) = some y) →
      ∃ m, alookup pos (l.filterMap f) = some m ∧ f (pos, cnt) = some (pos, m)
  | [], pos, cnt, hfind, _ => by rw [alookup_nil] at hfind; exact absurd hfind (by simp)
  | (p, a) :: t, pos, cnt, hfind, hex => by
    by_cases hp : p = pos
    · subst hp
      rw [alookup_cons_self] at hfind
      have hca : cnt = a := by
        injection hfind with h1
        exact h1.symm
      subst hca
      obtain ⟨y, hy⟩ := hex
      have hy1 : y.1 = p := hkey _ _ hy
      have hyeq : y = (p, y.2) := by rw [← hy1]
      refine ⟨y.2, ?_, ?_⟩
      · rw [List.filterMap_cons, hy]
        show alookup p (y :: List.filterMap f t) = some y.2
        rw [hyeq, alookup_cons_self]
      · rw [hy, hyeq]
    · rw [alookup_cons_ne hp] at hfind
      obtain ⟨m, hm1, hm2⟩ := alookup_filterMap_keyed f hkey t pos cnt hfind hex
      refine ⟨m, ?_, hm2⟩
      rw [List.filterMap_cons]
      cases hfa : f (p, a) with
      | none => exact hm1
      | some y =>
        have hy1 : y.1 = p := hkey _ _ hfa
        have hyeq : y = (p, y.2) := by rw [← hy1]
        show alookup pos (y :: List.filterMap f t) = some m
        rw [hyeq, alookup_cons_ne hp]
        exact hm1

/-- The body of `compute_positional` as a named function. -/
def posOutputEntry (s : StatsAggregator) (pc : String × List (String × ℕ)) :
    Option (String × List (String × ℚ)) :=
  let hands := cntGet pc.2 "hands" 0
  if hands = 0 then none
  else
    let vp := (cntGet pc.2 "vpip" 0 : ℚ) / (hands : ℚ) * 100
    let pf := (cntGet pc.2 "pfr" 0 : ℚ) / (hands : ℚ) * 100
    let cbf := cbfOf pc.2 hands
    let results :=
      (s.hands.filter
        (fun h => alookup s.hero (determine_positions h) == some pc.1)).map
        Hand.hero_result
    let bb100 : ℚ :=
      if results.isEmpty then 0
      else results.sum / meanQ (s.hands.map Hand.bb) * 100 / (results.length : ℚ)
    some (pc.1,
      [("hands", (hands : ℚ)), ("vpip_pct", round2 vp), ("pfr_pct", round2 pf),
       ("bb_per_100", round2 bb100)])

theorem compute_positional_eq (s : StatsAggregator) :
    compute_positional s = s.pos_stats.filterMap (posOutputEntry s) := rfl

theorem posOutputEntry_key (s : StatsAggregator) (x : String × List (String × ℕ))
    (y : String × List (String × ℚ)) (h : posOutputEntry s x = some y) : y.1 = x.1 := by
  simp only [posOutputEntry] at h
  by_cases hh : cntGet x.2 "hands" 0 = 0
  · rw [if_pos hh] at h
    exact absurd h (by simp)
  · rw [if_neg hh] at h
    injection h with h1
    rw [← h1]

/-- C10: if hero is not among a hand's seated players (in particular when
the player list is empty), the hand is recorded under "UNKNOWN" — a label
outside the fixed vocabulary — whose hand counter is bumped by one, and
"UNKNOWN" then appears in `compute_positional`'s output with that hand
count. -/
theorem c10_unknown_position (s : StatsAggregator) (hand : Hand)
    (h : s.hero ∉ hand.players.map Player.name) :
    hero_position s.hero hand = "UNKNOWN" ∧
    cntGet (posCounter (add_hand s hand).pos_stats "UNKNOWN") "hands" 0 =
      cntGet (posCounter s.pos_stats "UNKNOWN") "hands" 0 + 1 ∧
    ∃ m, alookup "UNKNOWN" (compute_positional (add_hand s hand)) = some m ∧
      alookup "hands" m =
        some ((cntGet (posCounter (add_hand s hand).pos_stats "UNKNOWN") "hands" 0 : ℕ) : ℚ) := by
  have hu := hero_position_unknown s.hero hand h
  have hh := add_hand_pos_hands s hand
  rw [hu] at hh
  refine ⟨hu, hh, ?_⟩
  cases hfind : alookup "UNKNOWN" (add_hand s hand).pos_stats with
  | none =>
    rw [posCounter, hfind] at hh
    simp [cntGet, alookup_nil] at hh
  | some cnt =>
    have hcnt : posCounter (add_hand s hand).pos_stats "UNKNOWN" = cnt := by
      rw [posCounter, hfind]
      rfl
    have hne : cntGet cnt "hands" 0 ≠ 0 := by
      rw [hcnt] at hh
      omega
    have hex : ∃ y, posOutputEntry (add_hand s hand) ("UNKNOWN", cnt) = some y := by
      simp only [posOutputEntry, if_neg hne]
      exact ⟨_, rfl⟩
    obtain ⟨m, hm1, hm2⟩ :=
      alookup_filterMap_keyed (posOutputEntry (add_hand s hand))
        (posOutputEntry_key (add_hand s hand)) (add_hand s hand).pos_stats "UNKNOWN" cnt
        hfind hex
    refine ⟨m, by rw [compute_positional_eq]; exact hm1, ?_⟩
    simp only [posOutputEntry, if_neg hne] at hm2
    injection hm2 with h1
    have h2 := congrArg Prod.snd h1
    simp only at h2
    rw [← h2, hcnt, alookup_cons_self]

/-- C10 witness: ingesting a hand with no seated players records it under
"UNKNOWN", which appears in the positional output with hand count 1. -/
theorem c10_unknown_position_witness :
    ∃ m, alookup "UNKNOWN"
        (compute_positional (add_hand (initAgg "H") exHandNoPlayers)) = some m ∧
      alookup "hands" m =
        some ((cntGet (posCounter (add_hand (initAgg "H") exHandNoPlayers).pos_stats
          "UNKNOWN") "hands" 0 : ℕ) : ℚ) :=
  (c10_unknown_position (initAgg "H") exHandNoPlayers (by decide)).2.2

-- =========================================================
--  C4: positional c-bet ratios
-- =========================================================

/-- No positional counter ever holds the key `cbet_flop_opportunities`. -/
def NoOppKey (ps : List (String × List (String × ℕ))) : Prop :=
  ∀ pos, alookup "cbet_flop_opportunities" (posCounter ps pos) = none

theorem posIncr_NoOppKey (ps : List (String × List (String × ℕ))) (pos k : String)
    (hk : k ≠ "cbet_flop_opportunities") (h : NoOppKey ps) : NoOppKey (posIncr ps pos k) := by
  intro p1
  rw [posCounter_posIncr]
  split_ifs with hp
  · rw [alookup_assocIncr_other _ _ _ (Ne.symm hk)]
    exact h pos
  · exact h p1

theorem add_hand_NoOppKey (s : StatsAggregator) (hand : Hand)
    (h : NoOppKey s.pos_stats) : NoOppKey (add_hand s hand).pos_stats := by
  simp only [add_hand, upCbetTurn_eq, upCbetFlop_eq, upShowdown_eq, upSawFlop_eq, upPfr_eq,
    upVpip_eq, upBase]
  split_ifs <;>
    (repeat
      first
      | exact h
      | refine posIncr_NoOppKey _ _ _ (by decide) ?_)

theorem foldl_NoOppKey : ∀ (hs : List Hand) (s : StatsAggregator),
    NoOppKey s.pos_stats → NoOppKey (hs.foldl add_hand s).pos_stats
  | [], _, h => h
  | hd :: t, s, h => by
    rw [List.foldl_cons]
    exact foldl_NoOppKey t (add_hand s hd) (add_hand_NoOppKey s hd h)

theorem compute_positional_keys (s : StatsAggregator)
    (pm : String × List (String × ℚ)) (hm : pm ∈ compute_positional s) :
    pm.2.map Prod.fst = ["hands", "vpip_pct", "pfr_pct", "bb_per_100"] := by
  rw [compute_positional_eq] at hm
  obtain ⟨pc, hpc, hf⟩ := List.mem_filterMap.mp hm
  simp only [posOutputEntry] at hf
  by_cases hh : cntGet pc.2 "hands" 0 = 0
  · rw [if_pos hh] at hf
    exact absurd hf (by simp)
  · rw [if_neg hh] at hf
    injection hf with h1
    rw [← h1]
    rfl

/-- C4 (amended): `compute_positional` maintains no positional c-bet
opportunity counter — the key `cbet_flop_opportunities` is absent from
every reachable positional counter, so the internally computed (and then
discarded) flop c-bet ratio divides by the position's hand-count fallback
— and the mapping it returns carries only the keys hands, vpip_pct,
pfr_pct and bb_per_100: no c-bet ratio is part of the output. -/
theorem c4_no_positional_cbet_ratio :
    (∀ (hero : String) (hs : List Hand) (pos : String),
      alookup "cbet_flop_opportunities"
        (posCounter (ingestAll hero hs).pos_stats pos) = none) ∧
    (∀ (s : StatsAggregator) (pm : String × List (String × ℚ)),
      pm ∈ compute_positional s →
      pm.2.map Prod.fst = ["hands", "vpip_pct", "pfr_pct", "bb_per_100"]) := by
  constructor
  · intro hero hs pos
    refine foldl_NoOppKey hs (initAgg hero) ?_ pos
    intro p1
    rfl
  · exact compute_positional_keys

/-- C4 (amended) witness: at a two-hand state (one c-bet hit at BTN) the
positional opportunity key is absent and the BTN output row has exactly
the four fixed keys. -/
theorem c4_no_positional_cbet_ratio_witness :
    alookup "cbet_flop_opportunities"
      (posCounter (ingestAll "H" [exHandCbet, exHandFold]).pos_stats "BTN") = none ∧
    ∃ pm ∈ compute_positional (ingestAll "H" [exHandCbet, exHandFold]),
      pm.2.map Prod.fst = ["hands", "vpip_pct", "pfr_pct", "bb_per_100"] := by
  constructor
  · exact c4_no_positional_cbet_ratio.1 "H" [exHandCbet, exHandFold] "BTN"
  · have hlen : (compute_positional (ingestAll "H" [exHandCbet, exHandFold])).length = 1 := by
      decide
    have hne : compute_positional (ingestAll "H" [exHandCbet, exHandFold]) ≠ [] := by
      intro hnil
      rw [hnil] at hlen
      simp at hlen
    obtain ⟨pm, hpm⟩ := List.exists_mem_of_ne_nil _ hne
    exact ⟨pm, hpm, c4_no_positional_cbet_ratio.2 _ pm hpm⟩

/-- C4 (counterexample): at a reachable state with one flop c-bet hit and
one opportunity at BTN over two BTN hands, `compute_positional` returns
for BTN only the keys hands/vpip_pct/pfr_pct/bb_per_100 — no c-bet ratio
at all — and the internally discarded ratio `cbfOf` evaluates to
1/2·100 = 50 (denominator = the position's hand count), not the
1/1·100 = 100 the claim's hits/opportunities rule would give. -/
theorem c4_counterexample :
    (compute_positional (ingestAll "H" [exHandCbet, exHandFold])).map
        (fun pm => (pm.1, pm.2.map Prod.fst)) =
      [("BTN", ["hands", "vpip_pct", "pfr_pct", "bb_per_100"])] ∧
    (ingestAll "H" [exHandCbet, exHandFold]).cbet_flop = 1 ∧
    (ingestAll "H" [exHandCbet, exHandFold]).cbet_flop_opportunities = 1 ∧
    cntGet (posCounter (ingestAll "H" [exHandCbet, exHandFold]).pos_stats "BTN")
      "cbet_flop" 0 = 1 ∧
    cntGet (posCounter (ingestAll "H" [exHandCbet, exHandFold]).pos_stats "BTN")
      "hands" 0 = 2 ∧
    cbfOf (posCounter (ingestAll "H" [exHandCbet, exHandFold]).pos_stats "BTN")
      (cntGet (posCounter (ingestAll "H" [exHandCbet, exHandFold]).pos_stats "BTN")
        "hands" 0) = 50 ∧
    (1 : ℚ) / 1 * 100 = 100 ∧ (50 : ℚ) ≠ 100 := by
  have hcnt : posCounter (ingestAll "H" [exHandCbet, exHandFold]).pos_stats "BTN" =
      [("hands", 2), ("vpip", 1), ("pfr", 1), ("cbet_flop", 1)] := by decide
  refine ⟨by decide, by decide, by decide, by decide, by decide, ?_, by norm_num, by norm_num⟩
  rw [hcnt]
  have h1 : cntGet [("hands", 2), ("vpip", 1), ("pfr", 1), ("cbet_flop", 1)] "hands" 0 = 2 := by
    decide
  have h2 : cntGet [("hands", 2), ("vpip", 1), ("pfr", 1), ("cbet_flop", 1)] "cbet_flop" 0 = 1 := by
    decide
  have h3 : cntGet [("hands", 2), ("vpip", 1), ("pfr", 1), ("cbet_flop", 1)]
      "cbet_flop_opportunities" 2 = 2 := by decide
  rw [h1, cbfOf]
  simp only [h2, h3]
  norm_num

end HH
